import Mathlib

/-!
Verification of the deterministic core of the agentic-pipeline-repair
system: the diagnostic SQL sandbox, the health classifier of
`get_pipeline_status`, schema-drift detection of `get_schema_info`,
the audit log insert of `log_agent_action` together with the
transaction handling of `config/db.execute_query`, the dependency-graph
endpoint `get_pipeline_dag`, the `/chat` endpoint, the background
scheduler, and the (spec-described) `add_dependency` cycle guard.

Strings of the Python source are embedded as `List Char`; the Python
string operations used by the source (`strip`, `upper`, `startswith`,
substring containment via `in`) are defined below on `List Char`.
`upper` is modelled on the ASCII range, which covers every character
class the source's keyword filter is concerned with.
-/

/-- Whitespace recognised by Python's `str.strip()` (ASCII range). -/
def pyIsSpace (c : Char) : Bool :=
  c = ' ' || c = '\t' || c = '\n' || c = '\x0d' || c = '\x0b' || c = '\x0c'

/-- Python `str.strip()`: drop leading and trailing whitespace. -/
def pyStrip (s : List Char) : List Char :=
  ((s.dropWhile pyIsSpace).reverse.dropWhile pyIsSpace).reverse

/-- ASCII uppercase of one character, as in `str.upper()` on ASCII text. -/
def asciiUpper (c : Char) : Char :=
  if 'a' ≤ c && c ≤ 'z' then Char.ofNat (c.toNat - 32) else c

/-- Python `str.upper()` over the whole string (ASCII model). -/
def pyUpper (s : List Char) : List Char :=
  s.map asciiUpper

/-- Python's substring test `needle in hay`. -/
def isSubstr (needle : List Char) : List Char → Bool
  | [] => needle.isEmpty
  | c :: rest => needle.isPrefixOf (c :: rest) || isSubstr needle rest

/-- The `forbidden` list of `execute_diagnostic_sql` (tools.py line 230). -/
def forbiddenWords : List (List Char) :=
  ["INSERT".data, "UPDATE".data, "DELETE".data, "DROP".data,
   "ALTER".data, "TRUNCATE".data, "CREATE".data]

/-- Payload returned by `execute_diagnostic_sql`: either the JSON error
object or the data object (rows plus the truncation `note` flag). -/
inductive DiagPayload (ρ : Type) : Type where
  | perror (msg : List Char) : DiagPayload ρ
  | pdata (rows : List ρ) (truncated : Bool) : DiagPayload ρ
deriving DecidableEq

/-- Result of one call to `execute_diagnostic_sql`: the returned payload
plus whether the query was handed to the database (`execute_query`). -/
structure DiagOutput (ρ : Type) : Type where
  payload : DiagPayload ρ
  executed : Bool
deriving DecidableEq

/-- The validation predicate of `execute_diagnostic_sql`: normalized text
must start with SELECT or WITH and contain no forbidden keyword. -/
def sandboxAccepts (q : List Char) : Bool :=
  let normalized := pyUpper (pyStrip q)
  ("SELECT".data.isPrefixOf normalized || "WITH".data.isPrefixOf normalized)
    && !(forbiddenWords.any (fun w => isSubstr w normalized))

/-- Function `execute_diagnostic_sql` (tools.py lines 217-243).  The database call
`execute_query(sql_query, read_only=True)` is abstracted as `runQ`: its
`Except` value is the list of rows it fetches, or the message of the
exception it raises (caught by the `try/except`). -/
def execute_diagnostic_sql (runQ : Except (List Char) (List ρ))
    (q : List Char) : DiagOutput ρ :=
  let normalized := pyUpper (pyStrip q)
  if !("SELECT".data.isPrefixOf normalized) && !("WITH".data.isPrefixOf normalized) then
    ⟨.perror "Only SELECT/WITH queries allowed for diagnostics.".data, false⟩
  else
    match forbiddenWords.find? (fun w => isSubstr w normalized) with
    | some w => ⟨.perror ("Forbidden keyword detected: ".data ++ w), false⟩
    | none =>
      match runQ with
      | .error e => ⟨.perror e, true⟩
      | .ok results =>
        if results.length > 100 then ⟨.pdata (results.take 100) true, true⟩
        else ⟨.pdata results false, true⟩


/-! ## Health classifier (`get_pipeline_status`, tools.py lines 29-67)

The SQL query joins each active pipeline with its latest run (greatest
`started_at`, via `ORDER BY pr.started_at DESC LIMIT 1`) and computes

    CASE
      WHEN lr.duration_seconds > p.sla_minutes * 60 THEN 'SLA_BREACHED'
      WHEN lr.status = 'failed' THEN 'FAILED'
      WHEN lr.status = 'running' THEN 'RUNNING'
      ELSE 'HEALTHY'
    END

Under SQL three-valued logic a comparison with NULL is not true, so a
NULL `duration_seconds` (a run still running, or a pipeline with no run
at all on the outer side of the LEFT JOIN) never satisfies the first
branch, and a missing run satisfies no branch and lands on ELSE. -/

inductive RunStatus : Type where
  | running | success | failed
deriving DecidableEq

inductive Health : Type where
  | HEALTHY | FAILED | SLA_BREACHED | RUNNING
deriving DecidableEq

/-- One row of `pipeline_meta.pipeline_runs` (fields the query reads):
`started_at` in epoch seconds, `duration_seconds` NULL while running. -/
structure RunRow : Type where
  status : RunStatus
  started_at : Int
  duration_seconds : Option Int
deriving DecidableEq

/-- One row of `pipeline_meta.pipelines` (fields the query reads),
with the pipeline's runs attached. -/
structure PipelineRow : Type where
  pipeline_name : String
  sla_minutes : Int
  is_active : Bool
  runs : List RunRow
deriving DecidableEq

/-- SQL `x > y` where `x` may be NULL: NULL compares to nothing. -/
def sqlNullGt (x : Option Int) (y : Int) : Bool :=
  match x with
  | none => false
  | some v => v > y

/-- SQL `ORDER BY pr.started_at DESC LIMIT 1`: a run with maximal
`started_at` (the first such run in table order when tied). -/
def latestRun (runs : List RunRow) : Option RunRow :=
  runs.foldl
    (fun acc r =>
      match acc with
      | none => some r
      | some b => if r.started_at > b.started_at then some r else some b)
    none

/-- The CASE expression of `get_pipeline_status`, applied to the latest
run of a pipeline (`none` = LEFT JOIN produced NULLs). -/
def codeHealth (p : PipelineRow) (lr : Option RunRow) : Health :=
  match lr with
  | none => .HEALTHY
  | some r =>
    if sqlNullGt r.duration_seconds (p.sla_minutes * 60) then .SLA_BREACHED
    else if r.status = .failed then .FAILED
    else if r.status = .running then .RUNNING
    else .HEALTHY

/-- The `health_status` that `get_pipeline_status` reports for one active
pipeline: the CASE expression over its latest run. -/
def get_pipeline_status_health (p : PipelineRow) : Health :=
  codeHealth p (latestRun p.runs)

/-- The spec's `classify(pipeline, latest_run)` (spec §4.3), written from
the spec's words for comparison with the code: failed → FAILED; running
with elapsed time since start (`now - started_at`) over SLA →
SLA_BREACHED, else RUNNING; success with duration over SLA →
SLA_BREACHED; otherwise (including no run) HEALTHY. -/
def specClassify (now : Int) (p : PipelineRow) (lr : Option RunRow) : Health :=
  match lr with
  | none => .HEALTHY
  | some r =>
    if r.status = .failed then .FAILED
    else if r.status = .running then
      if now - r.started_at > p.sla_minutes * 60 then .SLA_BREACHED else .RUNNING
    else
      if sqlNullGt r.duration_seconds (p.sla_minutes * 60) then .SLA_BREACHED
      else .HEALTHY

/-! ## Schema drift (`get_schema_info`, tools.py lines 133-178)

The drift part of the result: the two column lists come back from the
database, the function forms the Python sets of their `column_name`
fields and computes `added = current - snapshot`,
`removed = snapshot - current`, `drift_detected = bool(added or removed)`.
Column names are abstracted to any type with decidable equality. -/

structure DriftResult (α : Type) [DecidableEq α] : Type where
  drift_detected : Bool
  columns_added : Finset α
  columns_removed : Finset α

/-- The drift computation of `get_schema_info`, given the
`column_name` fields of the current-schema query and of the snapshot
query (a table with no stored snapshot yields `snapshotCols = []`). -/
def get_schema_info_drift [DecidableEq α] (currentCols snapshotCols : List α) :
    DriftResult α :=
  let current_cols := currentCols.toFinset
  let snapshot_cols := snapshotCols.toFinset
  let added := current_cols \ snapshot_cols
  let removed := snapshot_cols \ current_cols
  { drift_detected := added.Nonempty ∨ removed.Nonempty
    columns_added := added
    columns_removed := removed }

/-! ## Audit log (`log_agent_action`, tools.py 247-283; `execute_query`,
db.py 20-36)

`execute_query` opens a fresh connection, executes the statement and
then — only when the cursor has no result description — commits; when
the statement returns rows (as the `INSERT ... RETURNING` of
`log_agent_action` does) the function returns the fetched rows from
inside the `with` block, `conn.commit()` on the following line is never
reached, and the `finally: conn.close()` discards the open transaction.
The model makes the transaction explicit: the statement's effect is kept
pending until a commit. -/

/-- Effect of `execute_query(sql, params, read_only=False)` on an
insert-one-row statement: `db` is the committed table, `row` the row the
statement inserts, `hasDescription` whether the cursor has a result
description (true exactly when the statement has a RETURNING clause).
Returns the committed table after `conn.close()` and the rows fetched. -/
def execute_query_insert (db : List ρ) (row : ρ) (hasDescription : Bool) :
    List ρ × List ρ :=
  if hasDescription then
    (db, [row])
  else
    (db ++ [row], [])

/-- Payload `log_agent_action` serialises back to the caller. -/
inductive LogPayload (ρ : Type) : Type where
  | logged (action : Option ρ) : LogPayload ρ
  | lerror (msg : List Char) : LogPayload ρ
deriving DecidableEq

/-- Function `log_agent_action`: runs the `INSERT ... RETURNING action_id,
created_at` through `execute_query(..., read_only=False)` and reports
`{"logged": true, "action": result[0]}`.  Returns the committed
`agent_actions` table after the call and the payload. -/
def log_agent_action (db : List ρ) (row : ρ) : List ρ × LogPayload ρ :=
  let (db2, result) := execute_query_insert db row true
  (db2, .logged result.head?)

/-! ## Dependency endpoint (`get_pipeline_dag`, tools.py lines 71-101)

Tables: `pipelines` as (pipeline_id, pipeline_name) rows, `dependencies`
as (pipeline_id, depends_on_pipeline_id) rows.  The query finds the
target id by name, then lists the names of pipelines the target depends
on (`upstream`) and of pipelines depending on the target (`downstream`).
Neither CTE carries an ORDER BY; the model returns rows in table-scan
order, which is all the SQL guarantees nothing beyond. -/

structure MetaDb : Type where
  pipelines : List (Nat × String)
  dependencies : List (Nat × Nat)
deriving DecidableEq

/-- Subquery `(SELECT pipeline_id FROM pipeline_meta.pipelines WHERE
pipeline_name = %s)` as a scalar subquery: first matching row's id. -/
def targetId (db : MetaDb) (name : String) : Option Nat :=
  (db.pipelines.find? (fun p => p.2 = name)).map (fun p => p.1)

/-- The `upstream` CTE: names of pipelines the target depends on
(join of `dependencies.depends_on_pipeline_id` with `pipelines`). -/
def dagUpstream (db : MetaDb) (name : String) : List String :=
  (db.dependencies.filter (fun d => some d.1 = targetId db name)).flatMap
    (fun d => (db.pipelines.filter (fun p => p.1 = d.2)).map (fun p => p.2))

/-- The `downstream` CTE: names of pipelines that depend on the target. -/
def dagDownstream (db : MetaDb) (name : String) : List String :=
  (db.dependencies.filter (fun d => some d.2 = targetId db name)).flatMap
    (fun d => (db.pipelines.filter (fun p => p.1 = d.1)).map (fun p => p.2))

/-! ## `/chat` endpoint (api/main.py lines 213-234)

The endpoint runs the agent call in a worker thread and joins it with a
120-second timeout; the observable outcome of that call is one of:
the agent returned an answer within the ceiling, the agent raised
(caught in the worker, its message stored), or the thread is still alive
when the join times out.  The endpoint then inspects, in order,
`t.is_alive()`, `error["msg"]`, `result["response"]`. -/

inductive AgentOutcome : Type where
  | answer (s : String)
  | raises (msg : String)
  | timesOut
deriving DecidableEq

structure ChatResponse : Type where
  response : String
deriving DecidableEq

/-- The `/chat` handler's dispatch on the worker-thread outcome. -/
def chat (o : AgentOutcome) : ChatResponse :=
  match o with
  | .timesOut => ⟨"Request timed out. Try a more specific question."⟩
  | .raises m => ⟨"Error: " ++ m⟩
  | .answer s => ⟨s⟩

/-! ## Scheduler (`agents/scheduler.py`, `PipelineScheduler`)

State of the object: `running`, `interval` (seconds), `check_count`,
`last_check`, `_thread`; `thread_live` counts the loop threads that are
still executing `_loop`.  `start()` returns immediately when `running`
is already true; otherwise it sets `running`, spawns a loop thread and
stores its handle.  `stop()` clears `running` and calls
`self._thread.join(timeout=5)`: the join returns either because the
tracked thread exited, or because the five-second timeout expired while
the loop was still inside `_run_check()` — whose `run_health_check()`
agent call has no bound — leaving that thread live.  Which of the two
happened is an input of the model (`joinObserved`).  A live loop thread
exits on its own only at a `running` test that reads false
(`schedLoopExit`); if `running` has been set true again by a new
`start()` before that test, the old thread keeps looping.

The loop body

    while self.running:
        self._run_check()
        for _ in range(self.interval):
            if not self.running: break
            time.sleep(1)

is modelled as a small-step machine whose program counter distinguishes
the `while` test, the per-tick `running` test (with the remaining range
count), and the committed `time.sleep(1)` that follows a passed test —
`stop()` may land between the test and the sleep, in which case that one
sleep still happens. -/

structure SchedState : Type where
  running : Bool
  interval : Nat
  check_count : Nat
  last_check : Option Int
  thread_live : Nat
deriving DecidableEq

/-- Method `start()`: second component reports whether a new loop thread was
spawned by this call. -/
def schedStart (s : SchedState) : SchedState × Bool :=
  if s.running then (s, false)
  else ({ s with running := true, thread_live := s.thread_live + 1 }, true)

/-- Method `stop()`: clears `running` and joins the tracked thread with
`timeout=5`.  `joinObserved` is whether the join saw that thread exit
before the timeout; on a timeout (the loop stuck in an unbounded
`run_health_check` call) the thread is still live and the count is
unchanged. -/
def schedStop (s : SchedState) (joinObserved : Bool) : SchedState :=
  { s with running := false,
           thread_live := if joinObserved then s.thread_live - 1
                          else s.thread_live }

/-- A live loop thread reaches one of its `running` tests: it exits
(dropping the live count) exactly when `running` reads false; when a new
`start()` has set `running` back to true, it keeps looping. -/
def schedLoopExit (s : SchedState) : SchedState :=
  if s.running then s
  else { s with thread_live := s.thread_live - 1 }

/-- Program counter of `_loop`. -/
inductive LoopPC : Type where
  | whileCheck
  | tickCheck (remaining : Nat)
  | tickSleep (remaining : Nat)
  | exited
deriving DecidableEq

/-- One step of `_loop` under the current value of `running`; the Bool
reports whether the step performed a one-second `time.sleep(1)`. -/
def loopStep (running : Bool) (interval : Nat) : LoopPC → LoopPC × Bool
  | .whileCheck => if running then (.tickCheck interval, false) else (.exited, false)
  | .tickCheck 0 => (.whileCheck, false)
  | .tickCheck (n + 1) =>
    if running then (.tickSleep (n + 1), false) else (.whileCheck, false)
  | .tickSleep n => (.tickCheck (n - 1), true)
  | .exited => (.exited, false)

/-- Number of one-second sleep ticks `_loop` still performs from `pc`
when `running` has been set to false (it terminates; the recursion is on
the shape of `pc`). -/
def sleepsAfterStop : LoopPC → Nat
  | .whileCheck => 0
  | .tickCheck _ => 0
  | .tickSleep _ => 1
  | .exited => 0

/-- Number of steps `_loop` takes from `pc` to reach `exited` once
`running` is false. -/
def stepsToExit : LoopPC → Nat
  | .whileCheck => 1
  | .tickCheck _ => 2
  | .tickSleep _ => 3
  | .exited => 0

/-- Iterated loop stepping with `running = false`; also counts the
one-second sleeps performed along the way. -/
def loopRunStopped (interval : Nat) : Nat → LoopPC → LoopPC × Nat
  | 0, pc => (pc, 0)
  | n + 1, pc =>
    let (pc2, slept) := loopStep false interval pc
    let (pcEnd, count) := loopRunStopped interval n pc2
    (pcEnd, (if slept then 1 else 0) + count)

/-! ## Dependency insertion with cycle guard (spec §4.1, §8)

The repository stores dependencies as `(pipeline_id,
depends_on_pipeline_id)` rows but ships no insertion routine; only the
spec describes `add dependency(a, b)`.  The graph is the edge list, an
edge `(a, b)` reading "a depends on b". -/

/-- Dependency edge list over pipeline ids. -/
abbrev DepGraph : Type := List (Nat × Nat)

/-- Edge relation of the graph. -/
def edgeRel (G : DepGraph) (x y : Nat) : Prop := (x, y) ∈ G

instance (G : DepGraph) (x y : Nat) : Decidable (edgeRel G x y) := by
  unfold edgeRel; infer_instance

/-- Acyclicity: no node closes a nonempty edge path back to itself. -/
def Acyclic (G : DepGraph) : Prop :=
  ∀ x, ¬ Relation.TransGen (edgeRel G) x x

/-- One breadth step of reachable-set saturation: add every head of an
edge whose tail is already in the set. -/
def stepSet (G : DepGraph) (S : Finset Nat) : Finset Nat :=
  S ∪ ((G.filter (fun e => e.1 ∈ S)).map Prod.snd).toFinset

/-- Iteration of `stepSet`, n-fold. -/
def iterSet (G : DepGraph) : Nat → Finset Nat → Finset Nat
  | 0, S => S
  | n + 1, S => iterSet G n (stepSet G S)

/-- Modelled from the spec: the "reachability check from b to a" of
§4.1, as a decision procedure — saturate the set of nodes reachable
from `s`; `G.length + 1` rounds suffice on a graph of `G.length`
edges. -/
def reachable (G : DepGraph) (s t : Nat) : Bool :=
  t ∈ iterSet G (G.length + 1) {s}

/-- Error raised by `add_dependency` on a would-be cycle. -/
inductive DepError : Type where
  | cycle
deriving DecidableEq

/-- Modelled from the spec: `add dependency(a, b)` fails with
`CycleError` if adding the edge would create a cycle, "detected via
reachability check from b to a before insertion" (§4.1); otherwise the
edge is inserted. -/
def add_dependency (G : DepGraph) (a b : Nat) : Except DepError DepGraph :=
  if reachable G b a then .error .cycle else .ok ((a, b) :: G)

/-- The classification `get_pipeline_status` actually assigns to a
latest run: the stored `duration_seconds` is compared against the SLA
first, so a failed run whose duration exceeds the SLA reports
SLA_BREACHED, a NULL duration never breaches, and elapsed wall-clock
time is not consulted. -/
def amendedClassify (sla : Int) (r : RunRow) : Health :=
  if sqlNullGt r.duration_seconds (sla * 60) then .SLA_BREACHED
  else if r.status = .failed then .FAILED
  else if r.status = .running then .RUNNING
  else .HEALTHY

/-- Scheduler invariant: at most one loop thread is live, and none when
the scheduler is not running. -/
def SchedInv (s : SchedState) : Prop :=
  s.thread_live ≤ 1 ∧ (s.running = false → s.thread_live = 0)

/-- Lexicographic order on character lists (SQL `ORDER BY` on text). -/
def charListLe : List Char → List Char → Bool
  | [], _ => true
  | _ :: _, [] => false
  | c :: cs, d :: ds =>
    if c.toNat < d.toNat then true
    else if d.toNat < c.toNat then false
    else charListLe cs ds

/-- Name order used to state the spec's "ordered by name ascending". -/
def nameLe (x y : String) : Bool :=
  charListLe x.data y.data

/-! ### Correctness of the reachability check -/

lemma subset_stepSet (G : DepGraph) (S : Finset Nat) : S ⊆ stepSet G S :=
  Finset.subset_union_left

lemma stepSet_mem_of_edge {G : DepGraph} {S : Finset Nat} {u v : Nat}
    (hu : u ∈ S) (he : (u, v) ∈ G) : v ∈ stepSet G S := by
  refine Finset.mem_union.mpr (Or.inr ?_)
  rw [List.mem_toFinset]
  exact List.mem_map.mpr ⟨(u, v), List.mem_filter.mpr ⟨he, by simpa using hu⟩, rfl⟩

lemma subset_iterSet (G : DepGraph) (n : Nat) (S : Finset Nat) :
    S ⊆ iterSet G n S := by
  induction n generalizing S with
  | zero => simp [iterSet]
  | succ n ih =>
    exact fun x hx => ih (stepSet G S) (subset_stepSet G S hx)

lemma iterSet_sound {G : DepGraph} {n : Nat} {S : Finset Nat} {x : Nat}
    (hx : x ∈ iterSet G n S) :
    ∃ u ∈ S, Relation.ReflTransGen (edgeRel G) u x := by
  induction n generalizing S with
  | zero => exact ⟨x, hx, Relation.ReflTransGen.refl⟩
  | succ n ih =>
    obtain ⟨u, hu, hpath⟩ := ih hx
    rcases Finset.mem_union.mp hu with h | h
    · exact ⟨u, h, hpath⟩
    · rw [List.mem_toFinset] at h
      obtain ⟨e, hef, heu⟩ := List.mem_map.mp h
      have he := List.mem_filter.mp hef
      refine ⟨e.1, by simpa using he.2, Relation.ReflTransGen.head ?_ hpath⟩
      show (e.1, u) ∈ G
      have : e = (e.1, u) := by rw [← heu]
      rw [← this]; exact he.1

lemma iterSet_fixed {G : DepGraph} {S : Finset Nat} (h : stepSet G S = S) :
    ∀ n, iterSet G n S = S := by
  intro n
  induction n with
  | zero => rfl
  | succ n ih => simp [iterSet, h, ih]

lemma fixed_closed {G : DepGraph} {S : Finset Nat} (h : stepSet G S = S)
    {u x : Nat} (hu : u ∈ S)
    (hpath : Relation.ReflTransGen (edgeRel G) u x) : x ∈ S := by
  induction hpath with
  | refl => exact hu
  | tail _ hstep ih =>
    rw [← h]
    exact stepSet_mem_of_edge ih hstep

lemma iterSet_bounded {G : DepGraph} {U : Finset Nat}
    (hstep : ∀ T ⊆ U, stepSet G T ⊆ U) :
    ∀ n S, S ⊆ U → iterSet G n S ⊆ U := by
  intro n
  induction n with
  | zero => intro S hS; exact hS
  | succ n ih => intro S hS; exact ih (stepSet G S) (hstep S hS)

lemma iterSet_targets (G : DepGraph) (n : Nat) (s : Nat) :
    iterSet G n {s} ⊆ insert s ((G.map Prod.snd).toFinset) := by
  refine iterSet_bounded ?_ n {s} ?_
  · intro T hT x hx
    rcases Finset.mem_union.mp hx with h | h
    · exact hT h
    · rw [List.mem_toFinset] at h
      obtain ⟨e, hef, hex⟩ := List.mem_map.mp h
      refine Finset.mem_insert.mpr (Or.inr ?_)
      rw [List.mem_toFinset]
      exact List.mem_map.mpr ⟨e, (List.mem_filter.mp hef).1, hex⟩
  · intro x hx
    rw [Finset.mem_singleton] at hx
    subst hx
    exact Finset.mem_insert_self x _

lemma iterSet_grow_or_fixed (G : DepGraph) (n : Nat) (S : Finset Nat) :
    stepSet G (iterSet G n S) = iterSet G n S ∨
      S.card + n ≤ (iterSet G n S).card := by
  induction n generalizing S with
  | zero => exact Or.inr (by simp [iterSet])
  | succ n ih =>
    rcases ih (stepSet G S) with h | h
    · exact Or.inl h
    · by_cases hfix : stepSet G S = S
      · left
        have h1 : iterSet G (n + 1) S = S := iterSet_fixed hfix (n + 1)
        rw [h1, hfix]
      · right
        have hsub : S ⊂ stepSet G S :=
          (Finset.ssubset_iff_subset_ne).mpr ⟨subset_stepSet G S, fun h' => hfix h'.symm⟩
        have hcard : S.card + 1 ≤ (stepSet G S).card := Finset.card_lt_card hsub
        calc S.card + (n + 1) = S.card + 1 + n := by ring
        _ ≤ (stepSet G S).card + n := by omega
        _ ≤ (iterSet G (n + 1) S).card := by rw [iterSet]; exact h

/-- The bounded saturation decides reflexive-transitive reachability. -/
lemma reachable_iff (G : DepGraph) (s t : Nat) :
    reachable G s t = true ↔ Relation.ReflTransGen (edgeRel G) s t := by
  constructor
  · intro h
    rw [reachable, decide_eq_true_iff] at h
    obtain ⟨u, hu, hpath⟩ := iterSet_sound h
    rw [Finset.mem_singleton] at hu
    exact hu ▸ hpath
  · intro hpath
    rw [reachable, decide_eq_true_iff]
    rcases iterSet_grow_or_fixed G (G.length + 1) {s} with hfix | hcard
    · have hs : s ∈ iterSet G (G.length + 1) {s} :=
        subset_iterSet G (G.length + 1) {s} (Finset.mem_singleton_self s)
      exact fixed_closed hfix hs hpath
    · exfalso
      have h1 : (iterSet G (G.length + 1) {s}).card ≤
          (insert s ((G.map Prod.snd).toFinset)).card :=
        Finset.card_le_card (iterSet_targets G (G.length + 1) s)
      have h2 : (insert s ((G.map Prod.snd).toFinset)).card ≤
          (G.map Prod.snd).toFinset.card + 1 := Finset.card_insert_le s _
      have h3 : (G.map Prod.snd).toFinset.card ≤ G.length := by
        calc (G.map Prod.snd).toFinset.card ≤ (G.map Prod.snd).length :=
          (G.map Prod.snd).toFinset_card_le
        _ = G.length := G.length_map Prod.snd
      have h4 : ({s} : Finset Nat).card = 1 := Finset.card_singleton s
      omega

/-! ### Adding a non-closing edge preserves acyclicity -/

/-- Every path in the graph extended with edge `(a, b)` either avoids
the new edge, or splits at it: a path to `a` followed by one from `b`. -/
lemma path_decompose {G : DepGraph} {a b u v : Nat}
    (h : Relation.ReflTransGen (edgeRel ((a, b) :: G)) u v) :
    Relation.ReflTransGen (edgeRel G) u v ∨
      (Relation.ReflTransGen (edgeRel G) u a ∧
        Relation.ReflTransGen (edgeRel G) b v) := by
  induction h with
  | refl => exact Or.inl Relation.ReflTransGen.refl
  | tail _ hstep ih =>
    rename_i w x _
    have hcase : (w, x) = (a, b) ∨ (w, x) ∈ G := List.mem_cons.mp hstep
    rcases hcase with heq | hG
    · have hwa : w = a := congrArg Prod.fst heq
      have hxb : x = b := congrArg Prod.snd heq
      subst hwa; subst hxb
      rcases ih with h1 | ⟨h1, _⟩
      · exact Or.inr ⟨h1, Relation.ReflTransGen.refl⟩
      · exact Or.inr ⟨h1, Relation.ReflTransGen.refl⟩
    · rcases ih with h1 | ⟨h1, h2⟩
      · exact Or.inl (Relation.ReflTransGen.tail h1 hG)
      · exact Or.inr ⟨h1, Relation.ReflTransGen.tail h2 hG⟩

/-- If `a` is not reachable from `b`, inserting edge `(a, b)` keeps the
graph acyclic. -/
lemma acyclic_insert {G : DepGraph} {a b : Nat} (hG : Acyclic G)
    (hnr : ¬ Relation.ReflTransGen (edgeRel G) b a) :
    Acyclic ((a, b) :: G) := by
  intro x hcyc
  obtain ⟨y, hxy, hyx⟩ := (Relation.TransGen.head'_iff).mp hcyc
  have hcase : (x, y) = (a, b) ∨ (x, y) ∈ G := List.mem_cons.mp hxy
  rcases hcase with heq | hGxy
  · have hxa : x = a := congrArg Prod.fst heq
    have hyb : y = b := congrArg Prod.snd heq
    subst hxa; subst hyb
    rcases path_decompose hyx with h1 | ⟨h1, _⟩
    · exact hnr h1
    · exact hnr h1
  · rcases path_decompose hyx with h1 | ⟨h1, h2⟩
    · exact hG x (Relation.TransGen.head' hGxy h1)
    · exact hnr (Relation.ReflTransGen.trans h2
        (Relation.ReflTransGen.trans (Relation.ReflTransGen.single hGxy) h1))

/-! ## Helper lemmas about the sandbox -/

lemma sandboxAccepts_false_iff (q : List Char) :
    sandboxAccepts q = false ↔
      (("SELECT".data.isPrefixOf (pyUpper (pyStrip q)) = false ∧
        "WITH".data.isPrefixOf (pyUpper (pyStrip q)) = false) ∨
       ∃ w ∈ forbiddenWords, isSubstr w (pyUpper (pyStrip q)) = true) := by
  unfold sandboxAccepts
  cases h1 : "SELECT".data.isPrefixOf (pyUpper (pyStrip q)) <;>
    cases h2 : "WITH".data.isPrefixOf (pyUpper (pyStrip q)) <;>
      simp [h1, h2, List.any_eq_true]

/-- A rejected query never reaches the database and yields the JSON
error object. -/
lemma exec_diag_rejected {ρ : Type} (runQ : Except (List Char) (List ρ))
    (q : List Char) (h : sandboxAccepts q = false) :
    (execute_diagnostic_sql runQ q).executed = false ∧
      ∃ m, (execute_diagnostic_sql runQ q).payload = DiagPayload.perror m := by
  unfold execute_diagnostic_sql
  by_cases hpre : (!"SELECT".data.isPrefixOf (pyUpper (pyStrip q)) &&
      !"WITH".data.isPrefixOf (pyUpper (pyStrip q))) = true
  · rw [if_pos hpre]
    exact ⟨rfl, _, rfl⟩
  · rw [if_neg hpre]
    have hex : ∃ w ∈ forbiddenWords, isSubstr w (pyUpper (pyStrip q)) = true := by
      rcases (sandboxAccepts_false_iff q).mp h with ⟨h1, h2⟩ | hex
      · exact absurd (by simp [h1, h2]) hpre
      · exact hex
    cases hf : forbiddenWords.find? (fun w => isSubstr w (pyUpper (pyStrip q))) with
    | none =>
      obtain ⟨w, hw, hsub⟩ := hex
      have := List.find?_eq_none.mp hf w hw
      simp [hsub] at this
    | some w =>
      exact ⟨rfl, _, rfl⟩

/-- An accepted query is handed to the database and the result shaped by
the truncation rule, with any execution error caught into the payload. -/
lemma exec_diag_run {ρ : Type} (runQ : Except (List Char) (List ρ))
    (q : List Char) (h : sandboxAccepts q = true) :
    execute_diagnostic_sql runQ q =
      match runQ with
      | .error e => ⟨.perror e, true⟩
      | .ok results =>
        if results.length > 100 then ⟨.pdata (results.take 100) true, true⟩
        else ⟨.pdata results false, true⟩ := by
  have hand := h
  unfold sandboxAccepts at hand
  rw [Bool.and_eq_true, Bool.not_eq_true', List.any_eq_false] at hand
  obtain ⟨hpre, hforb⟩ := hand
  unfold execute_diagnostic_sql
  have hpre' : (!"SELECT".data.isPrefixOf (pyUpper (pyStrip q)) &&
      !"WITH".data.isPrefixOf (pyUpper (pyStrip q))) = false := by
    rw [Bool.or_eq_true] at hpre
    rcases hpre with h1 | h1 <;> simp [h1]
  rw [if_neg (by simp [hpre'])]
  have hfind : forbiddenWords.find? (fun w => isSubstr w (pyUpper (pyStrip q))) = none :=
    List.find?_eq_none.mpr (fun w hw => by simp [hforb w hw])
  rw [hfind]

/-! ## Helper lemma about `latestRun` -/

lemma latestRun_aux (l : List RunRow) (b : RunRow) :
    ∃ m, l.foldl
        (fun acc r =>
          match acc with
          | none => some r
          | some c => if r.started_at > c.started_at then some r else some c)
        (some b) = some m ∧
      m ∈ b :: l ∧ ∀ r' ∈ b :: l, r'.started_at ≤ m.started_at := by
  induction l generalizing b with
  | nil =>
    refine ⟨b, rfl, List.mem_cons_self b [], ?_⟩
    intro r' hr'
    rcases List.mem_cons.mp hr' with h | h
    · rw [h]
    · cases h
  | cons r t ih =>
    by_cases hgt : r.started_at > b.started_at
    · obtain ⟨m, hfold, hmem, hbound⟩ := ih r
      refine ⟨m, ?_, ?_, ?_⟩
      · simpa [hgt] using hfold
      · exact List.mem_cons_of_mem b hmem
      · intro r' hr'
        rcases List.mem_cons.mp hr' with h | h
        · have hr : r.started_at ≤ m.started_at :=
            hbound r (List.mem_cons_self r t)
          rw [h]
          omega
        · exact hbound r' h
    · obtain ⟨m, hfold, hmem, hbound⟩ := ih b
      refine ⟨m, ?_, ?_, ?_⟩
      · simpa [hgt] using hfold
      · rcases List.mem_cons.mp hmem with h | h
        · rw [h]
          exact List.mem_cons_self b (r :: t)
        · exact List.mem_cons_of_mem b (List.mem_cons_of_mem r h)
      · intro r' hr'
        rcases List.mem_cons.mp hr' with h | h
        · rw [h]
          exact hbound b (List.mem_cons_self b t)
        · rcases List.mem_cons.mp h with h2 | h2
          · have hb : b.started_at ≤ m.started_at :=
              hbound b (List.mem_cons_self b t)
            rw [h2]
            omega
          · exact hbound r' (List.mem_cons_of_mem b h2)

/-- Function `latestRun` returns a run of the list with maximal `started_at`,
and `none` exactly on the empty list. -/
lemma latestRun_spec (runs : List RunRow) :
    (latestRun runs = none → runs = []) ∧
      ∀ m, latestRun runs = some m →
        m ∈ runs ∧ ∀ r' ∈ runs, r'.started_at ≤ m.started_at := by
  cases runs with
  | nil => exact ⟨fun _ => rfl, fun m h => by cases h⟩
  | cons r t =>
    obtain ⟨m, hfold, hmem, hbound⟩ := latestRun_aux t r
    have hlr : latestRun (r :: t) = some m := by
      unfold latestRun
      simpa using hfold
    refine ⟨fun h => ?_, fun m' h => ?_⟩
    · rw [hlr] at h
      cases h
    · rw [hlr] at h
      cases h
      exact ⟨hmem, hbound⟩

/-! ## Claims -/

/-- C1: every query whose trimmed, upper-cased text does not begin with
SELECT or WITH, or whose normalized text contains any of INSERT, UPDATE,
DELETE, DROP, ALTER, TRUNCATE, CREATE anywhere, gets a JSON error
payload back and is never handed to the database — fail-closed even for
false positives; the spec's three example queries are rejected and the
fourth is accepted (handed to the database). -/
theorem execute_diagnostic_sql_fail_closed :
    (∀ (ρ : Type) (runQ : Except (List Char) (List ρ)) (q : List Char),
      (("SELECT".data.isPrefixOf (pyUpper (pyStrip q)) = false ∧
        "WITH".data.isPrefixOf (pyUpper (pyStrip q)) = false) ∨
        ∃ w ∈ forbiddenWords, isSubstr w (pyUpper (pyStrip q)) = true) →
      (execute_diagnostic_sql runQ q).executed = false ∧
        ∃ m, (execute_diagnostic_sql runQ q).payload = DiagPayload.perror m) ∧
    sandboxAccepts "DROP TABLE raw.orders".data = false ∧
    sandboxAccepts "DELETE FROM x".data = false ∧
    sandboxAccepts "SELECT 1; DROP TABLE x".data = false ∧
    (∀ (ρ : Type) (runQ : Except (List Char) (List ρ)),
      (execute_diagnostic_sql runQ
        "SELECT * FROM raw.orders LIMIT 5".data).executed = true) := by
  refine ⟨?_, by decide, by decide, by decide, ?_⟩
  · intro ρ runQ q hrej
    exact exec_diag_rejected runQ q ((sandboxAccepts_false_iff q).mpr hrej)
  · intro ρ runQ
    rw [exec_diag_run runQ _ (by decide)]
    cases runQ with
    | error e => rfl
    | ok results =>
      by_cases h : results.length > 100
      · simp [h]
      · simp [h]

/-- Witness for C1 at the spec's third example query. -/
theorem execute_diagnostic_sql_fail_closed_witness :
    (execute_diagnostic_sql (Except.ok [42])
        "SELECT 1; DROP TABLE x".data).executed = false ∧
      ∃ m, (execute_diagnostic_sql (Except.ok [42])
          "SELECT 1; DROP TABLE x".data).payload = DiagPayload.perror m :=
  execute_diagnostic_sql_fail_closed.1 Nat (Except.ok [42])
    "SELECT 1; DROP TABLE x".data (Or.inr ⟨"DROP".data, by decide, by decide⟩)

/-- C2 counterexample: with SLA 10 minutes, a latest run in `running`
state started 660 s (SLA+1 min) ago with NULL `duration_seconds` gets
health RUNNING from the code's CASE while the spec's classify says
SLA_BREACHED; and a failed latest run with stored duration 700 s > SLA
gets SLA_BREACHED from the code while the spec says FAILED. -/
theorem get_pipeline_status_health_counterexample :
    get_pipeline_status_health
        ⟨"stg_orders", 10, true, [⟨RunStatus.running, 0, none⟩]⟩ =
      Health.RUNNING ∧
    specClassify 660 ⟨"stg_orders", 10, true, [⟨RunStatus.running, 0, none⟩]⟩
        (latestRun [⟨RunStatus.running, 0, none⟩]) = Health.SLA_BREACHED ∧
    get_pipeline_status_health
        ⟨"mart_revenue_daily", 10, true, [⟨RunStatus.failed, 0, some 700⟩]⟩ =
      Health.SLA_BREACHED ∧
    specClassify 700 ⟨"mart_revenue_daily", 10, true,
        [⟨RunStatus.failed, 0, some 700⟩]⟩
        (latestRun [⟨RunStatus.failed, 0, some 700⟩]) = Health.FAILED ∧
    get_pipeline_status_health
        ⟨"stg_orders", 10, true, [⟨RunStatus.running, 0, none⟩]⟩ ≠
      specClassify 660 ⟨"stg_orders", 10, true, [⟨RunStatus.running, 0, none⟩]⟩
        (latestRun [⟨RunStatus.running, 0, none⟩]) ∧
    get_pipeline_status_health
        ⟨"mart_revenue_daily", 10, true, [⟨RunStatus.failed, 0, some 700⟩]⟩ ≠
      specClassify 700 ⟨"mart_revenue_daily", 10, true,
          [⟨RunStatus.failed, 0, some 700⟩]⟩
        (latestRun [⟨RunStatus.failed, 0, some 700⟩]) := by
  decide

/-- C2 (amended): `get_pipeline_status` reports HEALTHY for a pipeline
with no run, and otherwise applies `amendedClassify` to a maximal-
`started_at` run: stored duration over SLA → SLA_BREACHED (even for a
failed run), else failed → FAILED, else running → RUNNING (elapsed time
since start is never consulted, so a NULL duration never breaches),
else HEALTHY. -/
theorem get_pipeline_status_health_amended :
    ∀ p : PipelineRow,
      (p.runs = [] → get_pipeline_status_health p = Health.HEALTHY) ∧
      ∀ m, latestRun p.runs = some m →
        m ∈ p.runs ∧ (∀ r' ∈ p.runs, r'.started_at ≤ m.started_at) ∧
          get_pipeline_status_health p = amendedClassify p.sla_minutes m := by
  intro p
  constructor
  · intro h
    unfold get_pipeline_status_health codeHealth
    rw [h]
    rfl
  · intro m hm
    obtain ⟨hmem, hbound⟩ := (latestRun_spec p.runs).2 m hm
    refine ⟨hmem, hbound, ?_⟩
    unfold get_pipeline_status_health codeHealth amendedClassify
    rw [hm]

/-- Witness for C2's amended theorem at a one-run pipeline. -/
theorem get_pipeline_status_health_amended_witness :
    (⟨RunStatus.running, 0, none⟩ : RunRow) ∈
        [(⟨RunStatus.running, 0, none⟩ : RunRow)] ∧
      (∀ r' ∈ [(⟨RunStatus.running, 0, none⟩ : RunRow)],
        r'.started_at ≤ (⟨RunStatus.running, 0, none⟩ : RunRow).started_at) ∧
      get_pipeline_status_health
          ⟨"stg_orders", 10, true, [⟨RunStatus.running, 0, none⟩]⟩ =
        amendedClassify 10 ⟨RunStatus.running, 0, none⟩ :=
  (get_pipeline_status_health_amended
      ⟨"stg_orders", 10, true, [⟨RunStatus.running, 0, none⟩]⟩).2
    ⟨RunStatus.running, 0, none⟩ rfl

/-- C3: `log_agent_action` always reports `{"logged": true, ...}` with
the row echoed by the RETURNING clause, yet the committed
`agent_actions` table is unchanged — `execute_query` returns the
fetched rows before the `conn.commit()` line whenever the statement has
a result description, and closing the connection discards the pending
insert.  The second equation shows the same path does commit when the
statement returns no rows, pinpointing the early return as the bug. -/
theorem log_agent_action_reports_success_without_commit :
    ∀ (ρ : Type) (db : List ρ) (row : ρ),
      log_agent_action db row = (db, LogPayload.logged (some row)) ∧
        execute_query_insert db row false = (db ++ [row], []) :=
  fun ρ db row => ⟨rfl, rfl⟩

/-- C4 counterexample: a table with one live column `id` and no stored
snapshot: `get_schema_info` computes `added = {id} - {} = {id}` and so
reports `drift_detected = true` with a nonempty `columns_added` — not
the claimed false/empty/empty. -/
theorem get_schema_info_drift_counterexample :
    (get_schema_info_drift ["id"] ([] : List String)).drift_detected = true ∧
      (get_schema_info_drift ["id"] ([] : List String)).columns_added = {"id"} := by
  decide

/-- C4 (amended): when no snapshot is stored, nothing is reported
removed, every live column is reported added, and `drift_detected` is
true exactly when the live table has at least one column — absence of a
baseline is reported as drift for any non-empty table. -/
theorem get_schema_info_drift_no_snapshot :
    ∀ (α : Type) [inst : DecidableEq α] (currentCols : List α),
      (get_schema_info_drift currentCols ([] : List α)).columns_removed = ∅ ∧
      (get_schema_info_drift currentCols ([] : List α)).columns_added =
        currentCols.toFinset ∧
      (get_schema_info_drift currentCols ([] : List α)).drift_detected =
        !currentCols.isEmpty := by
  intro α inst currentCols
  unfold get_schema_info_drift
  refine ⟨by simp, by simp, ?_⟩
  cases currentCols with
  | nil => simp
  | cons c t => simp

/-- C5: an accepted query's payload never holds more than 100 rows;
when execution produces more than 100 rows the payload is the first 100
with the truncation note set (and the note is set only then); an
execution error is caught and returned as a structured error payload —
the embedding is a total function, nothing escapes. -/
theorem execute_diagnostic_sql_truncation :
    ∀ (ρ : Type) (runQ : Except (List Char) (List ρ)) (q : List Char),
      sandboxAccepts q = true →
      (∀ rows tr,
        (execute_diagnostic_sql runQ q).payload = DiagPayload.pdata rows tr →
        rows.length ≤ 100 ∧
          (tr = true ↔ ∃ res, runQ = Except.ok res ∧ res.length > 100)) ∧
      (∀ res, runQ = Except.ok res → res.length > 100 →
        execute_diagnostic_sql runQ q =
          ⟨DiagPayload.pdata (res.take 100) true, true⟩) ∧
      (∀ res, runQ = Except.ok res → res.length ≤ 100 →
        execute_diagnostic_sql runQ q = ⟨DiagPayload.pdata res false, true⟩) ∧
      (∀ e, runQ = Except.error e →
        execute_diagnostic_sql runQ q = ⟨DiagPayload.perror e, true⟩) := by
  intro ρ runQ q hacc
  have hrun := exec_diag_run runQ q hacc
  cases runQ with
  | error e =>
    have hout : execute_diagnostic_sql (Except.error e) q =
        ⟨DiagPayload.perror e, true⟩ := hrun
    refine ⟨?_, ?_, ?_, ?_⟩
    · intro rows tr h
      rw [hout] at h
      have h' : DiagPayload.perror e = DiagPayload.pdata rows tr := h
      cases h'
    · intro res h
      cases h
    · intro res h
      cases h
    · intro e' h
      cases h
      exact hout
  | ok res =>
    by_cases hlen : res.length > 100
    · have hout : execute_diagnostic_sql (Except.ok res) q =
          ⟨DiagPayload.pdata (res.take 100) true, true⟩ := by
        rw [hrun]
        simp [hlen]
      refine ⟨?_, ?_, ?_, ?_⟩
      · intro rows tr h
        rw [hout] at h
        have h' : DiagPayload.pdata (res.take 100) true =
            DiagPayload.pdata rows tr := h
        injection h' with h1 h2
        constructor
        · rw [← h1, List.length_take]
          omega
        · rw [← h2]
          exact ⟨fun _ => ⟨res, rfl, hlen⟩, fun _ => rfl⟩
      · intro res' h hlen'
        cases h
        exact hout
      · intro res' h hlen'
        cases h
        omega
      · intro e h
        cases h
    · have hout : execute_diagnostic_sql (Except.ok res) q =
          ⟨DiagPayload.pdata res false, true⟩ := by
        rw [hrun]
        simp [hlen]
      refine ⟨?_, ?_, ?_, ?_⟩
      · intro rows tr h
        rw [hout] at h
        have h' : DiagPayload.pdata res false = DiagPayload.pdata rows tr := h
        injection h' with h1 h2
        constructor
        · rw [← h1]
          omega
        · rw [← h2]
          constructor
          · intro hf
            cases hf
          · intro hex
            obtain ⟨res', heq, hlen'⟩ := hex
            injection heq with heq'
            rw [heq'] at hlen
            omega
      · intro res' h hlen'
        cases h
        omega
      · intro res' h hlen'
        cases h
        exact hout
      · intro e h
        cases h

/-- Witness for C5: the accepted example query with 101 produced rows is
truncated to the first 100 with the note set. -/
theorem execute_diagnostic_sql_truncation_witness :
    execute_diagnostic_sql (Except.ok (List.range 101))
        "SELECT * FROM raw.orders LIMIT 5".data =
      ⟨DiagPayload.pdata ((List.range 101).take 100) true, true⟩ :=
  ((execute_diagnostic_sql_truncation Nat (Except.ok (List.range 101))
      "SELECT * FROM raw.orders LIMIT 5".data (by decide)).2.1)
    (List.range 101) rfl (by decide)

/-- C6: from an acyclic dependency graph, `add_dependency G a b` either
succeeds, returning exactly the graph with edge (a, b) inserted and
still acyclic, or fails with CycleError — and it fails precisely when
the inserted edge would close a cycle.  Hence every graph reachable
through `add_dependency` from an acyclic one is acyclic, and a failing
call surrenders nothing but the error (the graph value is untouched). -/
theorem add_dependency_no_cycle :
    ∀ (G : DepGraph) (a b : Nat), Acyclic G →
      (∀ G', add_dependency G a b = Except.ok G' →
        G' = (a, b) :: G ∧ Acyclic G') ∧
      (add_dependency G a b = Except.error DepError.cycle ↔
        ¬ Acyclic ((a, b) :: G)) := by
  intro G a b hG
  by_cases hr : reachable G b a = true
  · have hpath := (reachable_iff G b a).mp hr
    have hcyc : ¬ Acyclic ((a, b) :: G) := by
      intro hA
      have hedge : edgeRel ((a, b) :: G) a b := List.mem_cons_self (a, b) G
      have hlift : Relation.ReflTransGen (edgeRel ((a, b) :: G)) b a :=
        Relation.ReflTransGen.mono
          (fun x y hxy => List.mem_cons_of_mem (a, b) hxy) hpath
      exact hA a (Relation.TransGen.head' hedge hlift)
    constructor
    · intro G' hok
      rw [add_dependency, if_pos hr] at hok
      cases hok
    · rw [add_dependency, if_pos hr]
      exact ⟨fun _ => hcyc, fun _ => rfl⟩
  · have hnr : ¬ Relation.ReflTransGen (edgeRel G) b a :=
      fun hp => hr ((reachable_iff G b a).mpr hp)
    have hA' : Acyclic ((a, b) :: G) := acyclic_insert hG hnr
    constructor
    · intro G' hok
      rw [add_dependency, if_neg hr] at hok
      cases hok
      exact ⟨rfl, hA'⟩
    · rw [add_dependency, if_neg hr]
      constructor
      · intro h
        cases h
      · intro h
        exact absurd hA' h

lemma acyclic_nil : Acyclic ([] : DepGraph) := by
  intro x h
  cases h with
  | single h1 => exact absurd h1 (List.not_mem_nil _)
  | tail _ h2 => exact absurd h2 (List.not_mem_nil _)

/-- Witness for C6: inserting edge (0, 1) into the empty graph. -/
theorem add_dependency_no_cycle_witness :
    (∀ G', add_dependency [] 0 1 = Except.ok G' →
      G' = [(0, 1)] ∧ Acyclic G') ∧
    (add_dependency [] 0 1 = Except.error DepError.cycle ↔
      ¬ Acyclic [(0, 1)]) :=
  add_dependency_no_cycle [] 0 1 acyclic_nil

/-- C7: the `/chat` handler maps every worker-thread outcome to an
error-shaped `ChatResponse` and never lets an exception escape: a join
timeout yields the timeout message, an agent exception yields its
message prefixed "Error: ", and a completed call yields the answer. -/
theorem chat_shapes :
    chat AgentOutcome.timesOut =
        ⟨"Request timed out. Try a more specific question."⟩ ∧
      (∀ m, chat (AgentOutcome.raises m) = ⟨"Error: " ++ m⟩) ∧
      (∀ s, chat (AgentOutcome.answer s) = ⟨s⟩) :=
  ⟨rfl, fun _ => rfl, fun _ => rfl⟩

/-- C8: whenever the snapshot's column-name set equals the live
column-name set — in particular immediately after snapshotting —
`get_schema_info` reports no drift and both difference sets empty. -/
theorem get_schema_info_drift_roundtrip :
    ∀ (α : Type) [inst : DecidableEq α] (currentCols snapshotCols : List α),
      currentCols.toFinset = snapshotCols.toFinset →
      (get_schema_info_drift currentCols snapshotCols).drift_detected = false ∧
        (get_schema_info_drift currentCols snapshotCols).columns_added = ∅ ∧
        (get_schema_info_drift currentCols snapshotCols).columns_removed = ∅ := by
  intro α inst c s h
  unfold get_schema_info_drift
  rw [h]
  simp

/-- Witness for C8: two permuted column lists with equal name sets. -/
theorem get_schema_info_drift_roundtrip_witness :
    (get_schema_info_drift ["id", "amount"] ["amount", "id"]).drift_detected =
        false ∧
      (get_schema_info_drift ["id", "amount"] ["amount", "id"]).columns_added =
        ∅ ∧
      (get_schema_info_drift ["id", "amount"] ["amount", "id"]).columns_removed =
        ∅ :=
  get_schema_info_drift_roundtrip String ["id", "amount"] ["amount", "id"]
    (by decide)

/-- C9 counterexample: the `upstream`/`downstream` CTEs of
`get_pipeline_dag` carry no ORDER BY.  With the dependency rows stored
as (t → b) then (t → a), the upstream names come back ["b", "a"]: the
direct neighbors, but not in ascending name order. -/
theorem get_pipeline_dag_counterexample :
    dagUpstream ⟨[(1, "t"), (2, "b"), (3, "a")], [(1, 2), (1, 3)]⟩ "t" =
        ["b", "a"] ∧
      ¬ List.Pairwise (fun x y => nameLe x y = true)
        (dagUpstream ⟨[(1, "t"), (2, "b"), (3, "a")], [(1, 2), (1, 3)]⟩ "t") := by
  decide

/-- C9 (amended): the upstream and downstream lists of
`get_pipeline_dag` contain exactly the direct dependency neighbors of
the target — one edge away, never the transitive closure — but in
dependency-table order; no ordering by pipeline name is applied. -/
theorem get_pipeline_dag_neighbors :
    ∀ (db : MetaDb) (name x : String),
      (x ∈ dagUpstream db name ↔ ∃ d ∈ db.dependencies,
        some d.1 = targetId db name ∧
          ∃ p ∈ db.pipelines, p.1 = d.2 ∧ p.2 = x) ∧
      (x ∈ dagDownstream db name ↔ ∃ d ∈ db.dependencies,
        some d.2 = targetId db name ∧
          ∃ p ∈ db.pipelines, p.1 = d.1 ∧ p.2 = x) := by
  intro db name x
  constructor
  · unfold dagUpstream
    rw [List.mem_flatMap]
    constructor
    · intro hex
      obtain ⟨d, hd, hx⟩ := hex
      obtain ⟨hd1, hd2⟩ := List.mem_filter.mp hd
      obtain ⟨p, hp, hpx⟩ := List.mem_map.mp hx
      obtain ⟨hp1, hp2⟩ := List.mem_filter.mp hp
      exact ⟨d, hd1, by simpa using hd2, p, hp1, by simpa using hp2, hpx⟩
    · intro hex
      obtain ⟨d, hd, hdt, p, hp, hpd, hpx⟩ := hex
      refine ⟨d, List.mem_filter.mpr ⟨hd, by simpa using hdt⟩, ?_⟩
      exact List.mem_map.mpr ⟨p, List.mem_filter.mpr ⟨hp, by simpa using hpd⟩, hpx⟩
  · unfold dagDownstream
    rw [List.mem_flatMap]
    constructor
    · intro hex
      obtain ⟨d, hd, hx⟩ := hex
      obtain ⟨hd1, hd2⟩ := List.mem_filter.mp hd
      obtain ⟨p, hp, hpx⟩ := List.mem_map.mp hx
      obtain ⟨hp1, hp2⟩ := List.mem_filter.mp hp
      exact ⟨d, hd1, by simpa using hd2, p, hp1, by simpa using hp2, hpx⟩
    · intro hex
      obtain ⟨d, hd, hdt, p, hp, hpd, hpx⟩ := hex
      refine ⟨d, List.mem_filter.mpr ⟨hd, by simpa using hdt⟩, ?_⟩
      exact List.mem_map.mpr ⟨p, List.mem_filter.mpr ⟨hp, by simpa using hpd⟩, hpx⟩

/-- C10 counterexample: from the fresh scheduler, `start()`; then
`stop()` whose `join(timeout=5)` expires while the loop is inside the
unbounded `run_health_check` call (`joinObserved = false`); then
`start()` again.  The second `start()` reads `running == False` and
spawns a fresh loop thread while the first is still live: two loops
started by `start()` are live at once, the at-most-one invariant fails,
and — `running` being true again — a `running` test makes neither loop
exit (`schedLoopExit` is the identity here), so both keep looping. -/
theorem scheduler_two_live_loops_counterexample :
    (schedStart (schedStop
        (schedStart ⟨false, 300, 0, none, 0⟩).1 false)).1 =
      ⟨true, 300, 0, none, 2⟩ ∧
    ¬ SchedInv (schedStart (schedStop
        (schedStart ⟨false, 300, 0, none, 0⟩).1 false)).1 ∧
    schedLoopExit (schedStart (schedStop
        (schedStart ⟨false, 300, 0, none, 0⟩).1 false)).1 =
      (schedStart (schedStop
        (schedStart ⟨false, 300, 0, none, 0⟩).1 false)).1 := by
  refine ⟨rfl, ?_, rfl⟩
  intro h
  exact absurd h.1 (by decide)

/-- C10 (amended): `start()` on a running scheduler returns with every
field of the state unchanged and spawns no loop thread, and a new loop
thread is spawned only from a non-running state; the at-most-one-live-
loop invariant is preserved by `start()`, by a loop thread exiting at a
false `running` test, and by any `stop()` whose `join(timeout=5)`
observes the loop's exit — but not by a `stop()` whose join times out
during a long health check, which is what the counterexample exploits;
`stop()` always clears `running`, after which `_loop` reaches `exited`
within `stepsToExit` steps performing at most one further one-second
sleep tick (exactly one only when `stop()` lands between a passed tick
test and its committed `time.sleep(1)`). -/
theorem scheduler_start_stop :
    (∀ s : SchedState, s.running = true → schedStart s = (s, false)) ∧
      (∀ s : SchedState, SchedInv s →
        SchedInv (schedStart s).1 ∧ SchedInv (schedStop s true) ∧
          SchedInv (schedLoopExit s)) ∧
      (∀ (s : SchedState) (joinObserved : Bool),
        (schedStop s joinObserved).running = false) ∧
      (∀ (interval : Nat) (pc : LoopPC),
        loopRunStopped interval (stepsToExit pc) pc =
            (LoopPC.exited, sleepsAfterStop pc) ∧
          sleepsAfterStop pc ≤ 1) := by
  refine ⟨?_, ?_, ?_, ?_⟩
  · intro s h
    unfold schedStart
    rw [if_pos h]
  · intro s hs
    refine ⟨?_, ?_, ?_⟩
    · unfold schedStart
      by_cases h : s.running = true
      · rw [if_pos h]
        exact hs
      · rw [if_neg h]
        have h0 : s.thread_live = 0 := by
          refine hs.2 ?_
          revert h
          cases s.running <;> simp
        refine ⟨by simp [h0], ?_⟩
        intro hcontra
        simp at hcontra
    · have h1 := hs.1
      constructor
      · show s.thread_live - 1 ≤ 1
        omega
      · intro hr
        show s.thread_live - 1 = 0
        omega
    · unfold schedLoopExit
      by_cases h : s.running = true
      · rw [if_pos h]
        exact hs
      · rw [if_neg h]
        have h0 : s.thread_live = 0 := by
          refine hs.2 ?_
          revert h
          cases s.running <;> simp
        exact ⟨by simp [h0], fun _ => by simp [h0]⟩
  · intro s joinObserved
    rfl
  · intro interval pc
    cases pc with
    | whileCheck => exact ⟨rfl, Nat.zero_le 1⟩
    | tickCheck n =>
      cases n with
      | zero => exact ⟨rfl, Nat.zero_le 1⟩
      | succ k => exact ⟨rfl, Nat.zero_le 1⟩
    | tickSleep n =>
      cases n with
      | zero => exact ⟨rfl, Nat.le_refl 1⟩
      | succ k =>
        cases k with
        | zero => exact ⟨rfl, Nat.le_refl 1⟩
        | succ j => exact ⟨rfl, Nat.le_refl 1⟩
    | exited => exact ⟨rfl, Nat.zero_le 1⟩

/-- Witness for C10 at a concrete running scheduler state and a loop
parked at a committed sleep with 7 ticks remaining. -/
theorem scheduler_start_stop_witness :
    schedStart ⟨true, 300, 4, some 0, 1⟩ = (⟨true, 300, 4, some 0, 1⟩, false) ∧
      (SchedInv (schedStart ⟨true, 300, 4, some 0, 1⟩).1 ∧
        SchedInv (schedStop ⟨true, 300, 4, some 0, 1⟩ true) ∧
        SchedInv (schedLoopExit ⟨true, 300, 4, some 0, 1⟩)) ∧
      loopRunStopped 300 (stepsToExit (LoopPC.tickSleep 7)) (LoopPC.tickSleep 7) =
        (LoopPC.exited, sleepsAfterStop (LoopPC.tickSleep 7)) :=
  ⟨scheduler_start_stop.1 ⟨true, 300, 4, some 0, 1⟩ rfl,
    scheduler_start_stop.2.1 ⟨true, 300, 4, some 0, 1⟩
      ⟨by decide, fun h => by simp at h⟩,
    (scheduler_start_stop.2.2.2 300 (LoopPC.tickSleep 7)).1⟩
